import Mathlib

/-!
Verification development for the FastAPI-labs repository: a shallow
embedding, in Lean 4, of the request/validation/response pipeline found in
the snapshot applications under `src/snapshots/`, together with theorems
settling the specification claims about response-model projection, path
resolution for file downloads, schema validation, store operations and
multi-file upload.

Conventions of the embedding:
* Python `str` values are Lean `String`; character-level operations are
  implemented over `String.data` (ASCII-level, matching the repository's
  inputs) with structural recursion so that they evaluate by `decide`/`rfl`.
* Python `float` is modelled as `Rat`: every numeric literal and comparison
  appearing in the sources is exact, so no rounding behaviour is involved.
* In-memory `dict` stores are association lists `List (key × value)` with
  `List.lookup`; Python `del d[k]` is modelled as filtering the key out.
* Fallible steps return `Except`/sum types; raised `HTTPException`s are
  explicit constructors.
-/

set_option autoImplicit false

namespace FapiLabs

/-! ## Character/string utilities (Python semantics) -/

/-- Split a list of characters on a separator character, keeping empty
components, as Python `str.split(sep)` does. -/
def splitCharAux (c : Char) (cur : List Char) : List Char → List (List Char)
  | [] => [cur.reverse]
  | a :: as =>
    if a = c then cur.reverse :: splitCharAux c [] as
    else splitCharAux c (a :: cur) as

/-- Split a string on a separator character (Python `s.split(c)`). -/
def strSplitOn (c : Char) (s : String) : List String :=
  (splitCharAux c [] s.data).map (fun l => ⟨l⟩)

/-- Python `os.path.basename` on POSIX: the substring after the last `/`. -/
def pyBasename (s : String) : String :=
  (strSplitOn '/' s).getLastD s

/-- Python `str.startswith`: character-list prefix test. -/
def pyStartsWith (s pre : String) : Bool :=
  pre.data.isPrefixOf s.data

/-- Python `str.endswith`: character-list suffix test. -/
def pyEndsWith (s suf : String) : Bool :=
  suf.data.reverse.isPrefixOf s.data.reverse

/-- Python `posixpath.join` restricted to two components: an absolute second
component replaces the first; otherwise the components are joined with a
single `/` unless the first already ends with one. -/
def pathJoin (a b : String) : String :=
  if pyStartsWith b "/" then b
  else if a = "" then b
  else if pyEndsWith a "/" then a ++ b
  else a ++ "/" ++ b

/-- Collapse path components as Python `posixpath.normpath` does for an
absolute path: drop empty and `.` components, let `..` pop the previous
component (or vanish at the root). The accumulator holds the components
seen so far, in reverse. -/
def collapseSegs (acc : List String) : List String → List String
  | [] => acc.reverse
  | seg :: rest =>
    if seg = "" ∨ seg = "." then collapseSegs acc rest
    else if seg = ".." then collapseSegs (acc.drop 1) rest
    else collapseSegs (seg :: acc) rest

/-- Join path components with `/`. -/
def joinSegs : List String → String
  | [] => ""
  | [a] => a
  | a :: rest => a ++ "/" ++ joinSegs rest

/-- Normalise a path to an absolute canonical form beginning with `/`
(the behaviour of `posixpath.normpath` on an absolute input). -/
def normAbs (p : String) : String :=
  ⟨'/' :: (joinSegs (collapseSegs [] (strSplitOn '/' p))).data⟩

/-- Python `os.path.abspath(p)` with current working directory `cwd`:
join a relative path onto `cwd`, then normalise. -/
def pyAbspath (cwd p : String) : String :=
  if pyStartsWith p "/" then normAbs p else normAbs (pathJoin cwd p)

/-- Infix test on character lists: does `needle` occur contiguously in the
second argument? (Python `needle in hay`.) -/
def hasSub (needle : List Char) : List Char → Bool
  | [] => needle.isEmpty
  | a :: as => needle.isPrefixOf (a :: as) || hasSub needle as

/-- Python `s.lower()` (ASCII). -/
def strLower (s : String) : String :=
  ⟨s.data.map Char.toLower⟩

/-- Python `len(s)`. -/
def strLen (s : String) : Nat :=
  s.data.length

/-- Python `"admin" in v.lower()`: case-insensitive substring test used by
the `Item.name` custom validator of `06_main.py`. -/
def nameContainsAdmin (s : String) : Bool :=
  hasSub "admin".data (strLower s).data

/-- Python `str.title` (ASCII): uppercase each letter that follows a
non-letter, lowercase every other letter. -/
def titleAux (prevAlpha : Bool) : List Char → List Char
  | [] => []
  | c :: cs =>
    if c.isAlpha then
      (if prevAlpha then c.toLower else c.toUpper) :: titleAux true cs
    else
      c :: titleAux false cs

/-- Python `s.title()` (ASCII). -/
def titleCase (s : String) : String :=
  ⟨titleAux false s.data⟩

/-! ## JSON-ish values, schemas, and response-model projection

FastAPI serialises a handler's return value through the route's declared
`response_model`: the pydantic output model reads each declared field by
name from the returned object and drops everything else.  We model objects
as association lists from field name to a flat JSON value, and a response
model as an ordered list of field declarations, each either required or
carrying a default. -/

/-- A flat JSON scalar value (objects and arrays are handled at the
meta level as association lists and lists). -/
inductive JValue where
  | null
  | bool (b : Bool)
  | num (q : Rat)
  | str (s : String)
  deriving DecidableEq, Repr

/-- An object: ordered field-name/value pairs. -/
abbrev JObj := List (String × JValue)

/-- The field names of an object, in order. -/
def keysOf (o : JObj) : List String :=
  o.map Prod.fst

/-- One declared field of an output schema: name plus optional default
(a field with no default is required). -/
structure FieldSpec where
  name : String
  dflt : Option JValue
  deriving DecidableEq, Repr

/-- The declared field names of a schema. -/
def fieldNames (schema : List FieldSpec) : List String :=
  schema.map FieldSpec.name

/-- Response-model projection: build a new object containing exactly the
schema's declared fields, read by name from the source; a required field
absent from the source is an error; fields of the source absent from the
schema are never copied. -/
def project (schema : List FieldSpec) (src : JObj) : Except String JObj :=
  match schema with
  | [] => .ok []
  | f :: rest =>
    match src.lookup f.name, f.dflt with
    | some v, _ =>
      (project rest src).map (fun out => (f.name, v) :: out)
    | none, some d =>
      (project rest src).map (fun out => (f.name, d) :: out)
    | none, none => .error ("missing required field " ++ f.name)

/-- Element-wise projection of a list of source objects (a route with a
`List[Model]` response model). -/
def projectEach (schema : List FieldSpec) : List JObj → Except String (List JObj)
  | [] => .ok []
  | src :: rest =>
    match project schema src with
    | .error e => .error e
    | .ok out => (projectEach schema rest).map (fun outs => out :: outs)

/-! ## Snapshot `10_main.py`: response models hiding internal fields -/

/-- Model of `ItemInternal` from `10_main.py`: internal representation carrying
`owner_id` and `secret_code`, absent from the public schema. -/
structure ItemInternal where
  name : String
  price : Rat
  owner_id : Int
  secret_code : String
  deriving DecidableEq, Repr

/-- Model of `UserIn` from `10_main.py`: the input model, including the password. -/
structure UserIn where
  username : String
  password : String
  email : String
  full_name : Option String
  deriving DecidableEq, Repr

/-- The attribute view of an `ItemInternal` object, as pydantic
serialisation reads it: every field is present by name. -/
def itemToObj (it : ItemInternal) : JObj :=
  [("name", .str it.name), ("price", .num it.price),
   ("owner_id", .num it.owner_id), ("secret_code", .str it.secret_code)]

/-- The attribute view of a `UserIn` object (password included). -/
def userToObj (u : UserIn) : JObj :=
  [("username", .str u.username), ("password", .str u.password),
   ("email", .str u.email),
   ("full_name", match u.full_name with | some s => .str s | none => .null)]

/-- The output schema `ItemPublic` (`name`, `price`; both required). -/
def itemPublicSchema : List FieldSpec :=
  [⟨"name", none⟩, ⟨"price", none⟩]

/-- The output schema `UserOut` (`username`, `email` required;
`full_name` optional with default `None`). -/
def userOutSchema : List FieldSpec :=
  [⟨"username", none⟩, ⟨"email", none⟩, ⟨"full_name", some .null⟩]

/-- A wire response body. -/
inductive Body where
  | empty
  | detail (s : String)
  | obj (o : JObj)
  | objList (l : List JObj)
  deriving DecidableEq, Repr

/-- A wire response: status code and body. -/
structure Resp where
  status : Nat
  body : Body
  deriving DecidableEq, Repr

/-- All field names occurring in a response body (element-wise over an
object list). -/
def respKeys (r : Resp) : List String :=
  match r.body with
  | .obj o => keysOf o
  | .objList l => l.flatMap keysOf
  | _ => []

/-- Endpoint `GET /items/{item_id}` of `10_main.py`: 404 when absent, otherwise the
stored `ItemInternal` serialised through `response_model=ItemPublic`. -/
def read_single_item (db : List (Nat × ItemInternal)) (item_id : Nat) : Resp :=
  match db.lookup item_id with
  | none => ⟨404, .detail "Item not found"⟩
  | some it =>
    match project itemPublicSchema (itemToObj it) with
    | .ok o => ⟨200, .obj o⟩
    | .error _ => ⟨500, .empty⟩

/-- Endpoint `GET /items/` of `10_main.py`: the list of stored internal items
serialised through `response_model=List[ItemPublic]`, element-wise. -/
def read_items (db : List (Nat × ItemInternal)) : Resp :=
  match projectEach itemPublicSchema (db.map (fun p => itemToObj p.2)) with
  | .ok l => ⟨200, .objList l⟩
  | .error _ => ⟨500, .empty⟩

/-- Endpoint `POST /users/` of `10_main.py`: store the full `UserIn` object (password
included) under its username, and answer 201 with the object serialised
through `response_model=UserOut`. -/
def create_user (db : List (String × UserIn)) (u : UserIn) :
    Resp × List (String × UserIn) :=
  let db' := (u.username, u) :: db
  match project userOutSchema (userToObj u) with
  | .ok o => (⟨201, .obj o⟩, db')
  | .error _ => (⟨500, .empty⟩, db')

/-- Endpoint `GET /users/{username}` of `10_main.py`: 404 when absent, otherwise the
stored `UserIn` serialised through `response_model=UserOut`. -/
def read_user (db : List (String × UserIn)) (username : String) : Resp :=
  match db.lookup username with
  | none => ⟨404, .detail "User not found"⟩
  | some u =>
    match project userOutSchema (userToObj u) with
    | .ok o => ⟨200, .obj o⟩
    | .error _ => ⟨500, .empty⟩

/-! ## Snapshots `06_main.py` / `09_main.py`: schema validation and the
400 validation-failure handler

`06_main.py` declares the `Item` pydantic model with per-field constraints
and a custom validator on `name`; `09_main.py` overrides the framework's
validation-failure handler to answer status 400 with the error details.
The embedding validates a raw payload field by field in declaration order,
collecting every field's (first) error, exactly as pydantic does. -/

/-- One structured validation error: field path and message. -/
structure ValidationError where
  field_path : List String
  message : String
  deriving DecidableEq, Repr

/-- A raw JSON payload for the `Item` schema of `06_main.py`, after type
coercion: each field either absent or carrying a value of its declared
type. -/
structure RawItem where
  name : Option String
  description : Option String
  price : Option Rat
  tax : Option Rat
  tag : Option (List String)
  deriving DecidableEq, Repr

/-- A validated `Item` value of `06_main.py`. -/
structure ItemV where
  name : String
  description : Option String
  price : Rat
  tax : Option Rat
  tag : List String
  deriving DecidableEq, Repr

/-- Validate `Item.name`: required, `min_length=3`, `max_length=50`, then
the custom validator `name_must_not_be_admin` which rejects any name
containing `admin` (case-insensitively) and otherwise title-cases it. -/
def checkName (raw : Option String) : Except ValidationError String :=
  match raw with
  | none => .error ⟨["name"], "Field required"⟩
  | some n =>
    if strLen n < 3 then
      .error ⟨["name"], "String should have at least 3 characters"⟩
    else if 50 < strLen n then
      .error ⟨["name"], "String should have at most 50 characters"⟩
    else if nameContainsAdmin n then
      .error ⟨["name"], "Value error, Item name cannot contain admin"⟩
    else
      .ok (titleCase n)

/-- Validate `Item.description`: optional (default `None`), `max_length=300`. -/
def checkDescription (raw : Option String) : Except ValidationError (Option String) :=
  match raw with
  | none => .ok none
  | some d =>
    if 300 < strLen d then
      .error ⟨["description"], "String should have at most 300 characters"⟩
    else
      .ok (some d)

/-- Validate `Item.price`: required, `gt=0`, `le=100000.0`. -/
def checkPrice (raw : Option Rat) : Except ValidationError Rat :=
  match raw with
  | none => .error ⟨["price"], "Field required"⟩
  | some p =>
    if ¬ (0 < p) then
      .error ⟨["price"], "Input should be greater than 0"⟩
    else if ¬ (p ≤ 100000) then
      .error ⟨["price"], "Input should be less than or equal to 100000"⟩
    else
      .ok p

/-- Validate `Item.tax`: optional (default `None`), `gt=0`. -/
def checkTax (raw : Option Rat) : Except ValidationError (Option Rat) :=
  match raw with
  | none => .ok none
  | some t =>
    if ¬ (0 < t) then
      .error ⟨["tax"], "Input should be greater than 0"⟩
    else
      .ok (some t)

/-- Validate `Item.tag`: default `[]` (defaults are not re-validated),
`min_length=1`, `max_length=5` on a supplied list. -/
def checkTag (raw : Option (List String)) : Except ValidationError (List String) :=
  match raw with
  | none => .ok []
  | some l =>
    if l.length < 1 then
      .error ⟨["tag"], "List should have at least 1 item"⟩
    else if 5 < l.length then
      .error ⟨["tag"], "List should have at most 5 items"⟩
    else
      .ok l

/-- The error list contributed by one field's check. -/
def errsOf {α : Type} : Except ValidationError α → List ValidationError
  | .error e => [e]
  | .ok _ => []

/-- Validate a raw payload against the `Item` schema of `06_main.py`:
every field is checked (errors are collected across all fields, in field
declaration order); success yields the validated value, with `name`
title-cased by the custom validator. -/
def validateItem (raw : RawItem) : Except (List ValidationError) ItemV :=
  match checkName raw.name, checkDescription raw.description,
        checkPrice raw.price, checkTax raw.tax, checkTag raw.tag with
  | .ok n, .ok d, .ok p, .ok t, .ok g => .ok ⟨n, d, p, t, g⟩
  | rn, rd, rp, rt, rg =>
    .error (errsOf rn ++ errsOf rd ++ errsOf rp ++ errsOf rt ++ errsOf rg)

/-- The serialised body of a successful `POST /items/` of `06_main.py`:
`{"item_id": id, **item.model_dump()}`. -/
def itemVToObj (item_id : Nat) (v : ItemV) : JObj :=
  [("item_id", .num item_id), ("name", .str v.name),
   ("description", match v.description with | some s => .str s | none => .null),
   ("price", .num v.price),
   ("tax", match v.tax with | some q => .num q | none => .null)]

/-- Outcome of a request to `POST /items/`: either the request was rejected
by validation before the handler ran (translated to a response by the
overridden handler of `09_main.py`), or the handler ran and answered. -/
inductive CreateOutcome where
  | rejected (status : Nat) (details : List ValidationError)
  | handled (status : Nat) (body : JObj)
  deriving DecidableEq, Repr

/-- Endpoint `POST /items/` of `06_main.py` behind the validation pipeline, with the
validation-failure handler of `09_main.py` (status 400, body carrying the
error details): on validation failure the handler never runs and the store
is unchanged; on success the item is stored under `len(db)+1` and echoed
with status 201. -/
def create_item_06 (db : List (Nat × ItemV)) (raw : RawItem) :
    CreateOutcome × List (Nat × ItemV) :=
  match validateItem raw with
  | .error es => (.rejected 400 es, db)
  | .ok v =>
    let item_id := db.length + 1
    (.handled 201 (itemVToObj item_id v), (item_id, v) :: db)

/-! ## Snapshot `12_main.py`: delete and update on the keyed store -/

/-- The `Item` model of `12_main.py` (`name`, `price`). -/
structure Item12 where
  name : String
  price : Rat
  deriving DecidableEq, Repr

/-- The attribute view of an `Item12` (its `model_dump()`). -/
def item12ToObj (v : Item12) : JObj :=
  [("name", .str v.name), ("price", .num v.price)]

/-- The response schema `Item` of `12_main.py` (`name`, `price` required). -/
def item12Schema : List FieldSpec :=
  [⟨"name", none⟩, ⟨"price", none⟩]

/-- Endpoint `DELETE /items/{item_id}` of `12_main.py`: 404 when the id is absent
(store untouched); otherwise the key is removed and the answer is 204
with an entirely empty body. -/
def delete_item (db : List (Nat × Item12)) (item_id : Nat) :
    Resp × List (Nat × Item12) :=
  match db.lookup item_id with
  | some _ => (⟨204, .empty⟩, db.filter (fun p => p.1 ≠ item_id))
  | none => (⟨404, .detail "Item not found"⟩, db)

/-- What the `update_item` handler of `12_main.py` hands back to the
framework: a raised 404, the *returned* (not raised) `HTTPException(304)`
object, or the updated value to be serialised through
`response_model=Item`. -/
inductive UpdateRet where
  | raised404
  | returnedExceptionObject (status : Nat)
  | value (v : Item12)
  deriving DecidableEq, Repr

/-- Endpoint `PUT /items/{item_id}` of `12_main.py`, handler level: 404 raised when
the id is absent; when the stored dump equals the payload's dump the
handler `return`s an `HTTPException(304)` object; otherwise the store is
overwritten and the new value returned. -/
def update_item (db : List (Nat × Item12)) (item_id : Nat) (item : Item12) :
    UpdateRet × List (Nat × Item12) :=
  match db.lookup item_id with
  | none => (.raised404, db)
  | some stored =>
    if stored = item then
      (.returnedExceptionObject 304, db)
    else
      (.value item, (item_id, item) :: db.filter (fun p => p.1 ≠ item_id))

/-- The attribute view of a Python `HTTPException` instance: it carries
`status_code`, `detail` and `headers`, and no `name`/`price` fields. -/
def httpExceptionObj (status : Nat) : JObj :=
  [("status_code", .num status), ("detail", .null), ("headers", .null)]

/-- The framework layer around `update_item`: a raised `HTTPException`
becomes its error response; any returned value is serialised through
`response_model=Item`, i.e. projected onto `item12Schema` — a value
lacking the schema's required fields fails response serialisation and
yields a 500 server fault. -/
def update_item_response (db : List (Nat × Item12)) (item_id : Nat)
    (item : Item12) : Resp :=
  match (update_item db item_id item).1 with
  | .raised404 => ⟨404, .detail "Item not found"⟩
  | .returnedExceptionObject s =>
    match project item12Schema (httpExceptionObj s) with
    | .ok o => ⟨200, .obj o⟩
    | .error _ => ⟨500, .detail "Internal Server Error"⟩
  | .value v =>
    match project item12Schema (item12ToObj v) with
    | .ok o => ⟨200, .obj o⟩
    | .error _ => ⟨500, .detail "Internal Server Error"⟩

/-! ## Snapshot `14_main.py`: multi-file upload with per-file failure -/

/-- The upload directory of `14_main.py`. -/
def UPLOAD_DIR : String := "./uploads"

/-- One uploaded file as the handler sees it: the (client-supplied)
filename, and whether the environment makes its chunked write raise
(with which message). -/
structure UFile where
  filename : Option String
  writeError : Option String
  deriving DecidableEq, Repr

/-- One entry of the multi-file upload response: saved with its path, or
failed with its error string. -/
inductive UploadEntry where
  | saved (filename : Option String) (save_path : String)
  | failed (filename : Option String) (error : String)
  deriving DecidableEq, Repr

/-- Whether an entry records a failure. -/
def UploadEntry.isFailed : UploadEntry → Bool
  | .failed _ _ => true
  | .saved _ _ => false

/-- The loop body of `upload_multiple_files`: the safe name is the basename
of the client filename (or `uploaded_file_{len(saved_files)}` when the
filename is missing), the destination joins it onto `UPLOAD_DIR`, and a
write failure is recorded in that file's entry without aborting the rest.
`acc` is `saved_files` built so far. -/
def processFiles (acc : List UploadEntry) : List UFile → List UploadEntry
  | [] => acc
  | f :: rest =>
    let safe := pyBasename (f.filename.getD ("uploaded_file_" ++ toString acc.length))
    let destination := pathJoin UPLOAD_DIR safe
    let entry :=
      match f.writeError with
      | some e => UploadEntry.failed f.filename e
      | none => UploadEntry.saved f.filename destination
    processFiles (acc ++ [entry]) rest

/-- Endpoint `POST /files/upload-multiple/` of `14_main.py`: process every file,
answering a message plus one detail entry per uploaded file. -/
def upload_multiple_files (files : List UFile) : String × List UploadEntry :=
  let details := processFiles [] files
  (toString details.length ++ " files processed.", details)

/-- Closed form of one entry of the upload loop, at batch position `k`. -/
def mkEntry (k : Nat) (f : UFile) : UploadEntry :=
  match f.writeError with
  | some e => UploadEntry.failed f.filename e
  | none =>
    UploadEntry.saved f.filename
      (pathJoin UPLOAD_DIR (pyBasename (f.filename.getD ("uploaded_file_" ++ toString k))))

/-- Closed form of the upload loop from batch position `k`. -/
def mkEntries (k : Nat) : List UFile → List UploadEntry
  | [] => []
  | f :: rest => mkEntry k f :: mkEntries (k + 1) rest

/-! ## Snapshot `15_main.py`: file download with path checks -/

/-- The download root of `15_main.py`. -/
def DOWNLOAD_DIR : String := "./downloadables/"

/-- The terminal outcome of a download endpoint: a raised 404, a raised
403, or a `FileResponse` serving `path` (with the optional media type and
`Content-Disposition` filename customisations of `download_custom`). -/
inductive DlResult where
  | notFound (detail : String)
  | accessDenied (detail : String)
  | fileResponse (path : String) (mediaType : Option String) (filename : Option String)
  deriving DecidableEq, Repr

/-- Endpoint `GET /download/basic/{file_name}` of `15_main.py`: basename the
user-supplied name, join onto `DOWNLOAD_DIR`, 404 when no regular file is
there, then 403 unless the (relative) joined path starts with the
*absolute* canonicalised root, else serve the file.  `isfile` is the
file-system oracle and `cwd` the server's working directory. -/
def download_basic (isfile : String → Bool) (cwd : String)
    (file_name : String) : DlResult :=
  let safe_base_filename := pyBasename file_name
  let file_path := pathJoin DOWNLOAD_DIR safe_base_filename
  if isfile file_path = false then
    .notFound "File not found"
  else if pyStartsWith file_path (pyAbspath cwd DOWNLOAD_DIR) = false then
    .accessDenied "Access denied"
  else
    .fileResponse file_path none none

/-- The response-customisation tail of `download_custom` (`15_main.py`
lines 103–126): guess the media type from the path's extension via the
`guess` table, fall back to `application/octet-stream` exactly when the
guess is `None`, and propose the client-visible download name
`download_{safe_base_filename}`. -/
def buildCustomFileResponse (guess : String → Option String)
    (file_path safe_base_filename : String) : DlResult :=
  let media_type :=
    match guess file_path with
    | some m => m
    | none => "application/octet-stream"
  let download_filename := "download_" ++ safe_base_filename
  .fileResponse file_path (some media_type) (some download_filename)

/-- Endpoint `GET /download/custom/{file_name}` of `15_main.py`: the same basename /
join / 404 / 403 sequence as `download_basic`, then the customised
`FileResponse`. -/
def download_custom (guess : String → Option String) (isfile : String → Bool)
    (cwd : String) (file_name : String) : DlResult :=
  let safe_base_filename := pyBasename file_name
  let file_path := pathJoin DOWNLOAD_DIR safe_base_filename
  if isfile file_path = false then
    .notFound "File not found"
  else if pyStartsWith file_path (pyAbspath cwd DOWNLOAD_DIR) = false then
    .accessDenied "Access denied"
  else
    buildCustomFileResponse guess file_path safe_base_filename

/-! ## Helper lemmas -/

/-- Projection yields exactly the schema's declared field names, in order. -/
theorem project_keys (schema : List FieldSpec) (src : JObj) (out : JObj)
    (h : project schema src = .ok out) : keysOf out = fieldNames schema := by
  induction schema generalizing out with
  | nil =>
    simp only [project] at h
    cases h
    rfl
  | cons f rest ih =>
    simp only [project] at h
    cases hl : src.lookup f.name with
    | some v =>
      rw [hl] at h
      cases hp : project rest src with
      | error e => rw [hp] at h; simp [Except.map] at h
      | ok out' =>
        rw [hp] at h
        simp only [Except.map] at h
        cases h
        simp [keysOf, fieldNames] at ih ⊢
        exact ih out' hp
    | none =>
      rw [hl] at h
      cases hd : f.dflt with
      | some d =>
        rw [hd] at h
        cases hp : project rest src with
        | error e => rw [hp] at h; simp [Except.map] at h
        | ok out' =>
          rw [hp] at h
          simp only [Except.map] at h
          cases h
          simp [keysOf, fieldNames] at ih ⊢
          exact ih out' hp
      | none => rw [hd] at h; cases h

/-- Element-wise projection: every output object has exactly the schema's
field names. -/
theorem projectEach_keys (schema : List FieldSpec) (srcs : List JObj)
    (outs : List JObj) (h : projectEach schema srcs = .ok outs) :
    ∀ o ∈ outs, keysOf o = fieldNames schema := by
  induction srcs generalizing outs with
  | nil =>
    simp only [projectEach] at h
    cases h
    intro o ho
    cases ho
  | cons src rest ih =>
    simp only [projectEach] at h
    cases hp : project schema src with
    | error e => rw [hp] at h; cases h
    | ok out =>
      rw [hp] at h
      cases hr : projectEach schema rest with
      | error e => rw [hr] at h; simp [Except.map] at h
      | ok outs' =>
        rw [hr] at h
        simp only [Except.map] at h
        cases h
        intro o ho
        rcases List.mem_cons.mp ho with rfl | hmem
        · exact project_keys schema src o hp
        · exact ih outs' hr o hmem

/-- The projection of an `ItemInternal` through `ItemPublic`. -/
def itemPublicObj (it : ItemInternal) : JObj :=
  [("name", .str it.name), ("price", .num it.price)]

/-- The projection of a `UserIn` through `UserOut`. -/
def userOutObj (u : UserIn) : JObj :=
  [("username", .str u.username), ("email", .str u.email),
   ("full_name", match u.full_name with | some s => .str s | none => .null)]

theorem project_itemInternal (it : ItemInternal) :
    project itemPublicSchema (itemToObj it) = .ok (itemPublicObj it) := rfl

theorem project_userIn (u : UserIn) :
    project userOutSchema (userToObj u) = .ok (userOutObj u) := rfl

theorem projectEach_items (db : List (Nat × ItemInternal)) :
    projectEach itemPublicSchema (db.map (fun p => itemToObj p.2)) =
      .ok (db.map (fun p => itemPublicObj p.2)) := by
  induction db with
  | nil => rfl
  | cons p rest ih =>
    simp only [List.map_cons, projectEach, project_itemInternal, ih, Except.map]

/-! ## Claim theorems -/

/-- Claim C1: a value returned through an operation with a declared output
schema is serialised with exactly the schema's declared fields: projection
never copies a field absent from the schema (so internal fields such as
`password`, `owner_id`, `secret_code` never appear), lists of entities are
filtered element-wise, and concretely `GET /items/{item_id}` and
`GET /items/` of `10_main.py` expose only `name` and `price`. -/
theorem response_model_filters_fields :
    (∀ (schema : List FieldSpec) (src out : JObj),
        project schema src = .ok out → keysOf out = fieldNames schema) ∧
    (∀ (schema : List FieldSpec) (srcs outs : List JObj),
        projectEach schema srcs = .ok outs →
          ∀ o ∈ outs, keysOf o = fieldNames schema) ∧
    (∀ (db : List (Nat × ItemInternal)) (item_id : Nat) (it : ItemInternal),
        db.lookup item_id = some it →
          read_single_item db item_id = ⟨200, .obj (itemPublicObj it)⟩ ∧
          respKeys (read_single_item db item_id) = ["name", "price"] ∧
          "secret_code" ∉ respKeys (read_single_item db item_id) ∧
          "owner_id" ∉ respKeys (read_single_item db item_id)) ∧
    (∀ db : List (Nat × ItemInternal),
        read_items db = ⟨200, .objList (db.map (fun p => itemPublicObj p.2))⟩ ∧
        ∀ k ∈ respKeys (read_items db), k = "name" ∨ k = "price") := by
  refine ⟨project_keys, projectEach_keys, ?_, ?_⟩
  · intro db item_id it hl
    have h : read_single_item db item_id = ⟨200, .obj (itemPublicObj it)⟩ := by
      simp only [read_single_item, hl, project_itemInternal]
    refine ⟨h, ?_, ?_, ?_⟩ <;> rw [h] <;> simp [respKeys, keysOf, itemPublicObj]
  · intro db
    have h : read_items db = ⟨200, .objList (db.map (fun p => itemPublicObj p.2))⟩ := by
      simp only [read_items, projectEach_items]
    refine ⟨h, ?_⟩
    rw [h]
    intro k hk
    simp only [respKeys, List.mem_flatMap, List.mem_map] at hk
    obtain ⟨o, ⟨p, _, rfl⟩, hko⟩ := hk
    simp [keysOf, itemPublicObj] at hko
    exact hko

/-- Witness for C1 at a concrete store: item 1 of `fake_items_db`. -/
theorem response_model_filters_fields_witness :
    read_single_item [(1, ⟨"keyboard", 75, 1, "abc"⟩)] 1 =
      ⟨200, .obj [("name", .str "keyboard"), ("price", .num 75)]⟩ ∧
    "secret_code" ∉ respKeys (read_single_item [(1, ⟨"keyboard", 75, 1, "abc"⟩)] 1) := by
  have h := response_model_filters_fields.2.2.1
    [(1, ⟨"keyboard", 75, 1, "abc"⟩)] 1 ⟨"keyboard", 75, 1, "abc"⟩ (by decide)
  have hkeys := response_model_filters_fields.1 itemPublicSchema
    (itemToObj ⟨"keyboard", 75, 1, "abc"⟩) (itemPublicObj ⟨"keyboard", 75, 1, "abc"⟩) rfl
  exact ⟨h.1, h.2.2.1⟩

/-- Claim C10: creating a user stores the complete input object — password
included and unmodified — in the backing store; output-schema filtering
applies only to the wire responses, so the stored entity keeps the
password while the create response and subsequent reads omit it. -/
theorem create_user_stores_password_filters_response
    (db : List (String × UserIn)) (u : UserIn) :
    create_user db u = (⟨201, .obj (userOutObj u)⟩, (u.username, u) :: db) ∧
    (create_user db u).2.lookup u.username = some u ∧
    (∀ w, (create_user db u).2.lookup u.username = some w →
        w.password = u.password) ∧
    "password" ∉ keysOf (userOutObj u) ∧
    read_user (create_user db u).2 u.username = ⟨200, .obj (userOutObj u)⟩ ∧
    "password" ∉ respKeys (read_user (create_user db u).2 u.username) := by
  have hc : create_user db u = (⟨201, .obj (userOutObj u)⟩, (u.username, u) :: db) := by
    simp only [create_user, project_userIn]
  have hl : ((u.username, u) :: db).lookup u.username = some u := by
    simp [List.lookup]
  have hr : read_user ((u.username, u) :: db) u.username = ⟨200, .obj (userOutObj u)⟩ := by
    simp only [read_user, hl, project_userIn]
  refine ⟨hc, ?_, ?_, ?_, ?_, ?_⟩
  · rw [hc]; exact hl
  · rw [hc]; intro w hw; rw [hl] at hw; cases hw; rfl
  · simp [keysOf, userOutObj]
  · rw [hc]; exact hr
  · rw [hc, hr]; simp [respKeys, keysOf, userOutObj]

/-- Witness for C10 at a concrete user. -/
theorem create_user_stores_password_filters_response_witness :
    (create_user [] ⟨"alice", "pw", "a@b.c", none⟩).2.lookup "alice" =
      some ⟨"alice", "pw", "a@b.c", none⟩ ∧
    "password" ∉ respKeys (read_user (create_user [] ⟨"alice", "pw", "a@b.c", none⟩).2 "alice") ∧
    (⟨"alice", "pw", "a@b.c", none⟩ : UserIn).password = "pw" := by
  have h := create_user_stores_password_filters_response [] ⟨"alice", "pw", "a@b.c", none⟩
  exact ⟨h.2.1, h.2.2.2.2.2, h.2.2.1 ⟨"alice", "pw", "a@b.c", none⟩ (by decide)⟩

/-- Unfolded form of `download_basic`. -/
theorem download_basic_eq (isfile : String → Bool) (cwd file_name : String) :
    download_basic isfile cwd file_name =
      if isfile (pathJoin DOWNLOAD_DIR (pyBasename file_name)) = false then
        .notFound "File not found"
      else if pyStartsWith (pathJoin DOWNLOAD_DIR (pyBasename file_name))
          (pyAbspath cwd DOWNLOAD_DIR) = false then
        .accessDenied "Access denied"
      else
        .fileResponse (pathJoin DOWNLOAD_DIR (pyBasename file_name)) none none := rfl

/-- A path whose text begins with `.` never has the `normAbs` of anything
as a prefix, since `normAbs` always begins with `/`. -/
theorem pyStartsWith_dot_normAbs (rest : List Char) (p : String) :
    pyStartsWith ⟨'.' :: rest⟩ (normAbs p) = false := by
  simp [pyStartsWith, normAbs, List.isPrefixOf]

/-- The canonicalised root used by the download endpoints always begins
with `/`, so the relative joined path (beginning with `.`) never passes the
`startswith` check. -/
theorem pyStartsWith_dot_abspath_root (rest : List Char) (cwd : String) :
    pyStartsWith ⟨'.' :: rest⟩ (pyAbspath cwd DOWNLOAD_DIR) = false := by
  have hrel : pyStartsWith DOWNLOAD_DIR "/" = false := by decide
  simp only [pyAbspath, hrel, Bool.false_eq_true, if_false]
  exact pyStartsWith_dot_normAbs rest (pathJoin cwd DOWNLOAD_DIR)

/-- Claim C2: for the traversal name `"../../etc/passwd"` the basic
download endpoint strips the name to its basename (`"passwd"`), joins it
under the root, and the request ends in 404 or 403 — it never serves any
file, in particular never a path outside the root. -/
theorem download_traversal_denied (isfile : String → Bool) (cwd : String) :
    pyBasename "../../etc/passwd" = "passwd" ∧
    (download_basic isfile cwd "../../etc/passwd" = .notFound "File not found" ∨
      download_basic isfile cwd "../../etc/passwd" = .accessDenied "Access denied") ∧
    ∀ p mt fn, download_basic isfile cwd "../../etc/passwd" ≠ .fileResponse p mt fn := by
  have hbase : pyBasename "../../etc/passwd" = "passwd" := by decide
  have hjoin : pathJoin DOWNLOAD_DIR (pyBasename "../../etc/passwd") =
      "./downloadables/passwd" := by decide
  have hdata : ("./downloadables/passwd" : String) = ⟨'.' :: "/downloadables/passwd".data⟩ := rfl
  have hsw : pyStartsWith "./downloadables/passwd" (pyAbspath cwd DOWNLOAD_DIR) = false := by
    rw [hdata]
    exact pyStartsWith_dot_abspath_root _ cwd
  rw [download_basic_eq, hjoin]
  refine ⟨hbase, ?_⟩
  cases hif : isfile "./downloadables/passwd" with
  | false => exact ⟨Or.inl rfl, by simp⟩
  | true => exact ⟨Or.inr (by simp [hsw]), by simp [hsw]⟩

/-- Witness for C2 at a concrete file system and working directory. -/
theorem download_traversal_denied_witness :
    download_basic (fun _ => false) "/srv" "../../etc/passwd" =
        .notFound "File not found" ∨
    download_basic (fun _ => false) "/srv" "../../etc/passwd" =
        .accessDenied "Access denied" :=
  (download_traversal_denied (fun _ => false) "/srv").2.1

/-- Claim C3 (code evaluation): with `hello.txt` an existing regular file
directly under the download root and the server running from `/srv`, the
basic download endpoint answers 403 Access Denied instead of serving the
file: the code compares the *relative* joined path against the *absolute*
canonicalised root, so the `startswith` check fails for every file. -/
theorem download_denies_file_under_root :
    download_basic (fun p => p == "./downloadables/hello.txt") "/srv" "hello.txt" =
      .accessDenied "Access denied" ∧
    download_custom (fun _ => some "text/plain")
        (fun p => p == "./downloadables/hello.txt") "/srv" "hello.txt" =
      .accessDenied "Access denied" := by
  constructor <;> decide

/-- A payload whose price is `-5` always produces a price validation error
(collected together with whatever other fields report). -/
theorem validateItem_negative_price (raw : RawItem) (h : raw.price = some (-5)) :
    ∃ es, validateItem raw = .error es ∧ ∃ e ∈ es, e.field_path = ["price"] := by
  have hp : checkPrice raw.price = .error ⟨["price"], "Input should be greater than 0"⟩ := by
    rw [h]
    simp [checkPrice]
  cases hn : checkName raw.name <;>
    cases hd : checkDescription raw.description <;>
      cases ht : checkTax raw.tax <;>
        cases hg : checkTag raw.tag <;>
          refine ⟨_, by simp only [validateItem, hn, hd, hp, ht, hg]; rfl, ?_⟩ <;>
            exact ⟨⟨["price"], "Input should be greater than 0"⟩, by simp [errsOf], rfl⟩

/-- Claim C4: POSTing a payload whose `price` is `-5` against the `Item`
schema (price declared `gt=0`) is rejected before the handler runs: the
response status is 400, its body is the ordered error sequence and
contains an entry whose field path is `["price"]`, and the store is left
unchanged (the handler is never invoked). -/
theorem negative_price_rejected_400 (raw : RawItem) (db : List (Nat × ItemV))
    (h : raw.price = some (-5)) :
    ∃ es, create_item_06 db raw = (.rejected 400 es, db) ∧
      ∃ e ∈ es, e.field_path = ["price"] := by
  obtain ⟨es, hv, he⟩ := validateItem_negative_price raw h
  exact ⟨es, by simp only [create_item_06, hv], he⟩

/-- Witness for C4: the concrete payload `{"name": "Keyboard", "price": -5,
"tag": ["a"]}` on an empty store. -/
theorem negative_price_rejected_400_witness :
    ∃ es, create_item_06 [] ⟨some "Keyboard", none, some (-5), none, some ["a"]⟩ =
        (.rejected 400 es, []) ∧
      ∃ e ∈ es, e.field_path = ["price"] :=
  negative_price_rejected_400 ⟨some "Keyboard", none, some (-5), none, some ["a"]⟩ [] rfl

/-- Every error the name check emits is located at field path `["name"]`. -/
theorem checkName_error_path (raw : Option String) (e : ValidationError)
    (h : checkName raw = .error e) : e.field_path = ["name"] := by
  cases raw with
  | none => cases h; rfl
  | some n =>
    simp only [checkName] at h
    split at h
    · cases h; rfl
    · split at h
      · cases h; rfl
      · split at h
        · cases h; rfl
        · cases h

/-- A name containing `admin` (case-insensitively) never passes the name
check, and the resulting error is at `["name"]`. -/
theorem checkName_admin_error (n : String) (h : nameContainsAdmin n = true) :
    ∃ e, checkName (some n) = .error e ∧ e.field_path = ["name"] := by
  simp only [checkName, h, if_true]
  split
  · exact ⟨_, rfl, rfl⟩
  · split
    · exact ⟨_, rfl, rfl⟩
    · exact ⟨_, rfl, rfl⟩

/-- A name passing the check is title-cased by the custom validator and
contains no `admin`. -/
theorem checkName_ok (n m : String) (h : checkName (some n) = .ok m) :
    m = titleCase n ∧ nameContainsAdmin n = false := by
  simp only [checkName] at h
  split at h
  · cases h
  · split at h
    · cases h
    · split at h
      · cases h
      · cases h
        rename_i hadm
        exact ⟨rfl, by simpa using hadm⟩

/-- The literal reading of claim C5 at a given payload and store: an
`admin`-containing name is rejected with a `["name"]` error; any other
name is title-cased, stored, and echoed in the creation response. -/
def claimNameTitlecased (raw : RawItem) (db : List (Nat × ItemV)) : Prop :=
  ∀ n, raw.name = some n →
    (nameContainsAdmin n = true →
      ∃ es, (create_item_06 db raw).1 = .rejected 400 es ∧
        ∃ e ∈ es, e.field_path = ["name"]) ∧
    (nameContainsAdmin n = false →
      ∃ item_id v, ((create_item_06 db raw).2.lookup item_id = some v ∧
          v.name = titleCase n) ∧
        ∃ body, (create_item_06 db raw).1 = .handled 201 body ∧
          ("name", .str (titleCase n)) ∈ body)

/-- Counterexample to claim C5 as stated: the payload
`{"name": "ab", "price": 1, "tag": ["a"]}` has no `admin` in its name, yet
nothing is stored and no creation response is produced — the name fails
`min_length=3`, so the whole request is rejected and the custom validator
never delivers a title-cased value downstream. -/
theorem name_titlecased_counterexample :
    ¬ claimNameTitlecased ⟨some "ab", none, some 1, none, some ["a"]⟩ [] := by
  intro hcl
  have h2 := (hcl "ab" rfl).2 (by decide)
  obtain ⟨item_id, v, ⟨hl, _⟩, _⟩ := h2
  have hdb : (create_item_06 [] ⟨some "ab", none, some 1, none, some ["a"]⟩).2 = [] := by
    decide
  rw [hdb] at hl
  simp [List.lookup] at hl

/-- Claim C5, amended: an `admin`-containing name (any casing) makes the
request fail with an error entry at `["name"]`; for any other name, if
validation of the whole payload succeeds, the validated value carries the
title-cased name and that value is what is stored and echoed (with the
title-cased name) in the 201 creation response. -/
theorem item_name_validator_amended (raw : RawItem) (db : List (Nat × ItemV))
    (n : String) (h : raw.name = some n) :
    (nameContainsAdmin n = true →
      ∃ es, create_item_06 db raw = (.rejected 400 es, db) ∧
        ∃ e ∈ es, e.field_path = ["name"]) ∧
    (∀ v, validateItem raw = .ok v →
      nameContainsAdmin n = false ∧
      v.name = titleCase n ∧
      create_item_06 db raw =
        (.handled 201 (itemVToObj (db.length + 1) v), (db.length + 1, v) :: db) ∧
      ((create_item_06 db raw).2.lookup (db.length + 1) = some v) ∧
      ("name", .str (titleCase n)) ∈ itemVToObj (db.length + 1) v) := by
  constructor
  · intro hadm
    obtain ⟨e, hne, hpath⟩ := checkName_admin_error n hadm
    rw [← h] at hne
    cases hd : checkDescription raw.description <;>
      cases hp : checkPrice raw.price <;>
        cases ht : checkTax raw.tax <;>
          cases hg : checkTag raw.tag <;>
            refine ⟨_,
              by simp only [create_item_06, validateItem, hne, hd, hp, ht, hg]; rfl,
              e, by simp [errsOf], hpath⟩
  · intro v hv
    cases hn : checkName raw.name with
    | error e =>
      cases hd : checkDescription raw.description <;>
        cases hp : checkPrice raw.price <;>
          cases ht : checkTax raw.tax <;>
            cases hg : checkTag raw.tag <;>
              simp [validateItem, hn, hd, hp, ht, hg] at hv
    | ok m =>
      have hn' : checkName (some n) = .ok m := h ▸ hn
      obtain ⟨hm, hadm⟩ := checkName_ok n m hn'
      cases hd : checkDescription raw.description with
      | error e =>
        cases hp : checkPrice raw.price <;>
          cases ht : checkTax raw.tax <;>
            cases hg : checkTag raw.tag <;>
              simp [validateItem, hn, hd, hp, ht, hg] at hv
      | ok d =>
        cases hp : checkPrice raw.price with
        | error e =>
          cases ht : checkTax raw.tax <;>
            cases hg : checkTag raw.tag <;>
              simp [validateItem, hn, hd, hp, ht, hg] at hv
        | ok p =>
          cases ht : checkTax raw.tax with
          | error e =>
            cases hg : checkTag raw.tag <;>
              simp [validateItem, hn, hd, hp, ht, hg] at hv
          | ok t =>
            cases hg : checkTag raw.tag with
            | error e => simp [validateItem, hn, hd, hp, ht, hg] at hv
            | ok g =>
              have hveq : validateItem raw = .ok ⟨m, d, p, t, g⟩ := by
                simp [validateItem, hn, hd, hp, ht, hg]
              rw [hveq] at hv
              cases hv
              have hc : create_item_06 db raw =
                  (.handled 201 (itemVToObj (db.length + 1) ⟨m, d, p, t, g⟩),
                   (db.length + 1, (⟨m, d, p, t, g⟩ : ItemV)) :: db) := by
                simp [create_item_06, hveq]
              refine ⟨hadm, hm, hc, ?_, ?_⟩
              · rw [hc]
                simp [List.lookup]
              · simp [itemVToObj, hm]

/-- Witness for the amended C5: the name `"AdminPanel"` is rejected with a
`["name"]` error, and the valid payload `{"name": "gaming keyboard",
"price": 10, "tag": ["a"]}` is stored with the title-cased name
`"Gaming Keyboard"`. -/
theorem item_name_validator_amended_witness :
    (∃ es, create_item_06 [] ⟨some "AdminPanel", none, some 1, none, some ["a"]⟩ =
        (.rejected 400 es, []) ∧ ∃ e ∈ es, e.field_path = ["name"]) ∧
    ((⟨"Gaming Keyboard", none, 10, none, ["a"]⟩ : ItemV).name =
        titleCase "gaming keyboard" ∧
      ("name", .str (titleCase "gaming keyboard")) ∈
        itemVToObj 1 ⟨"Gaming Keyboard", none, 10, none, ["a"]⟩) := by
  constructor
  · exact (item_name_validator_amended
      ⟨some "AdminPanel", none, some 1, none, some ["a"]⟩ [] "AdminPanel" rfl).1 (by decide)
  · have h := (item_name_validator_amended
      ⟨some "gaming keyboard", none, some 10, none, some ["a"]⟩ [] "gaming keyboard" rfl).2
      ⟨"Gaming Keyboard", none, 10, none, ["a"]⟩ rfl
    exact ⟨h.2.1, h.2.2.2.2⟩

/-- Removing a key from an association list makes its lookup fail. -/
theorem lookup_filter_ne {β : Type} (db : List (Nat × β)) (k : Nat) :
    (db.filter (fun p => p.1 ≠ k)).lookup k = none := by
  induction db with
  | nil => rfl
  | cons p rest ih =>
    obtain ⟨a, b⟩ := p
    rw [List.filter_cons]
    by_cases hp : a = k
    · rw [if_neg (by simp [hp])]
      exact ih
    · rw [if_pos (by simp [hp])]
      have hk : (k == a) = false := by simp [Ne.symm hp]
      simp [List.lookup, hk, ih]
      intro x y _ hxk hkx
      exact hxk hkx.symm

/-- Claim C6: deleting an absent id answers 404 and leaves the store
unchanged; deleting a present id answers 204 with an entirely empty body,
removes the key (the subsequent lookup fails), and any subsequent keyed
operation on that id — another delete, or an update — answers 404. -/
theorem delete_item_semantics (db : List (Nat × Item12)) (item_id : Nat) :
    (db.lookup item_id = none →
      delete_item db item_id = (⟨404, .detail "Item not found"⟩, db)) ∧
    (∀ v, db.lookup item_id = some v →
      delete_item db item_id =
        (⟨204, .empty⟩, db.filter (fun p => p.1 ≠ item_id)) ∧
      (delete_item db item_id).2.lookup item_id = none ∧
      (delete_item (delete_item db item_id).2 item_id).1 =
        ⟨404, .detail "Item not found"⟩ ∧
      ∀ payload, (update_item (delete_item db item_id).2 item_id payload).1 =
        .raised404) := by
  constructor
  · intro h
    unfold delete_item
    rw [h]
  · intro v h
    have hd : delete_item db item_id =
        (⟨204, .empty⟩, db.filter (fun p => p.1 ≠ item_id)) := by
      unfold delete_item
      rw [h]
    have hl : (db.filter (fun p => p.1 ≠ item_id)).lookup item_id = none :=
      lookup_filter_ne db item_id
    have hdel2 : delete_item (db.filter (fun p => p.1 ≠ item_id)) item_id =
        (⟨404, .detail "Item not found"⟩, db.filter (fun p => p.1 ≠ item_id)) := by
      unfold delete_item
      rw [hl]
    refine ⟨hd, ?_, ?_, ?_⟩
    · rw [hd]; exact hl
    · rw [hd, hdel2]
    · intro payload
      rw [hd]
      unfold update_item
      rw [hl]

/-- The initial store of `12_main.py`. -/
def db12init : List (Nat × Item12) :=
  [(1, ⟨"Laptop", 1200⟩), (2, ⟨"keyboard", 75⟩)]

/-- Witness for C6: deleting item 2 of the initial store, then the same id
again. -/
theorem delete_item_semantics_witness :
    delete_item db12init 2 = (⟨204, .empty⟩, [(1, ⟨"Laptop", 1200⟩)]) ∧
    (delete_item db12init 2).2.lookup 2 = none ∧
    (delete_item db12init 3).1 = ⟨404, .detail "Item not found"⟩ := by
  have h := (delete_item_semantics db12init 2).2 ⟨"keyboard", 75⟩ (by decide)
  have h404 := (delete_item_semantics db12init 3).1 (by decide)
  exact ⟨h.1.trans (by decide), h.2.1, by rw [h404]⟩

/-- Claim C7 (code evaluation): a `PUT` whose payload equals the stored
value does *not* produce a 304 response.  The handler `return`s (instead
of raising) an `HTTPException(304)` instance; serialising that object
through `response_model=Item` fails (it has none of the schema's fields),
so the request ends in a 500 server fault while the store stays
unchanged. -/
theorem update_equal_payload_no_304 :
    update_item db12init 1 ⟨"Laptop", 1200⟩ =
      (.returnedExceptionObject 304, db12init) ∧
    project item12Schema (httpExceptionObj 304) =
      .error "missing required field name" ∧
    update_item_response db12init 1 ⟨"Laptop", 1200⟩ =
      ⟨500, .detail "Internal Server Error"⟩ ∧
    (update_item_response db12init 1 ⟨"Laptop", 1200⟩).status = 500 := by
  refine ⟨by decide, rfl, by decide, by decide⟩

/-- Length of the closed-form upload entries. -/
theorem mkEntries_length (fs : List UFile) : ∀ k, (mkEntries k fs).length = fs.length := by
  induction fs with
  | nil => intro k; rfl
  | cons f rest ih => intro k; simp [mkEntries, ih]

/-- The upload loop equals its closed form. -/
theorem processFiles_closed (fs : List UFile) :
    ∀ acc, processFiles acc fs = acc ++ mkEntries acc.length fs := by
  induction fs with
  | nil => intro acc; simp [processFiles, mkEntries]
  | cons f rest ih =>
    intro acc
    cases hw : f.writeError with
    | none =>
      simp only [processFiles, mkEntries, hw]
      rw [ih]
      simp [mkEntry, hw, List.length_append]
    | some e =>
      simp only [processFiles, mkEntries, hw]
      rw [ih]
      simp [mkEntry, hw, List.length_append]

/-- Indexing the closed-form entries. -/
theorem mkEntries_getD (fs : List UFile) :
    ∀ k i, i < fs.length →
      (mkEntries k fs).getD i (.saved none "") = mkEntry (k + i) (fs.getD i ⟨none, none⟩) := by
  induction fs with
  | nil => intro k i h; cases h
  | cons f rest ih =>
    intro k i h
    cases i with
    | zero => simp [mkEntries, List.getD]
    | succ j =>
      have hj : j < rest.length := by simpa using h
      have := ih (k + 1) j hj
      simpa [mkEntries, List.getD, Nat.add_assoc, Nat.add_comm 1 j] using this

/-- An upload entry records a failure exactly when its file's write
failed. -/
theorem mkEntry_isFailed (k : Nat) (f : UFile) :
    (mkEntry k f).isFailed = f.writeError.isSome := by
  cases hw : f.writeError <;> simp [mkEntry, hw, UploadEntry.isFailed]

/-- Claim C8: the multi-file upload processes files independently — the
response details list has exactly one entry per uploaded file, in order;
entry `i` is marked failed precisely when file `i`'s write failed, and is
otherwise the saved entry with its destination path. -/
theorem upload_processes_each_file (files : List UFile) :
    (upload_multiple_files files).2.length = files.length ∧
    (upload_multiple_files files).2 = mkEntries 0 files ∧
    ∀ i, i < files.length →
      ((upload_multiple_files files).2.getD i (.saved none "") =
        mkEntry i (files.getD i ⟨none, none⟩)) ∧
      (((upload_multiple_files files).2.getD i (.saved none "")).isFailed = true ↔
        (files.getD i ⟨none, none⟩).writeError ≠ none) := by
  have hc : (upload_multiple_files files).2 = mkEntries 0 files := by
    simp [upload_multiple_files, processFiles_closed]
  refine ⟨by rw [hc]; exact mkEntries_length files 0, hc, ?_⟩
  intro i hi
  have hg : (mkEntries 0 files).getD i (.saved none "") =
      mkEntry i (files.getD i ⟨none, none⟩) := by
    simpa using mkEntries_getD files 0 i hi
  refine ⟨by rw [hc]; exact hg, ?_⟩
  rw [hc, hg, mkEntry_isFailed]
  cases hw : (files.getD i ⟨none, none⟩).writeError <;> simp [hw]

/-- The three-file batch of the specification's example, file #2 failing. -/
def files3 : List UFile :=
  [⟨some "a.txt", none⟩, ⟨some "b.txt", some "disk full"⟩, ⟨some "c.txt", none⟩]

/-- Witness for C8: three files with file #2 failing yield three entries,
#2 marked with the error, #1 and #3 saved under their paths. -/
theorem upload_processes_each_file_witness :
    (upload_multiple_files files3).2 =
      [.saved (some "a.txt") "./uploads/a.txt",
       .failed (some "b.txt") "disk full",
       .saved (some "c.txt") "./uploads/c.txt"] ∧
    (((upload_multiple_files files3).2.getD 1 (.saved none "")).isFailed = true) ∧
    (((upload_multiple_files files3).2.getD 0 (.saved none "")).isFailed = false) := by
  have h := upload_processes_each_file files3
  refine ⟨h.2.1.trans (by decide), ?_, ?_⟩
  · exact (h.2.2 1 (by decide)).2.mpr (by decide)
  · rw [(h.2.2 0 (by decide)).1]; decide

/-- Claim C9: the customised download response takes its media type from
the extension-based guess, falling back to `application/octet-stream`
exactly when the guess is unknown, and proposes a `Content-Disposition`
download filename (`download_` prefixed) that always differs from the
server-side file name. -/
theorem custom_download_media_and_filename (guess : String → Option String)
    (file_path safe : String) :
    (∀ m, guess file_path = some m →
      buildCustomFileResponse guess file_path safe =
        .fileResponse file_path (some m) (some ("download_" ++ safe))) ∧
    (guess file_path = none →
      buildCustomFileResponse guess file_path safe =
        .fileResponse file_path (some "application/octet-stream")
          (some ("download_" ++ safe))) ∧
    "download_" ++ safe ≠ safe := by
  refine ⟨?_, ?_, ?_⟩
  · intro m hm
    simp [buildCustomFileResponse, hm]
  · intro hm
    simp [buildCustomFileResponse, hm]
  · intro hcontra
    have hlen := congrArg strLen hcontra
    obtain ⟨l⟩ := safe
    simp [strLen, String.append] at hlen
    omega

/-- Witness for C9 at a concrete guess table: a `.txt` file keeps its
guessed type, an unknown extension falls back to the octet-stream type. -/
theorem custom_download_media_and_filename_witness :
    buildCustomFileResponse
        (fun p => if pyEndsWith p ".txt" then some "text/plain" else none)
        "./downloadables/notes.txt" "notes.txt" =
      .fileResponse "./downloadables/notes.txt" (some "text/plain")
        (some "download_notes.txt") ∧
    buildCustomFileResponse
        (fun p => if pyEndsWith p ".txt" then some "text/plain" else none)
        "./downloadables/data.xyz" "data.xyz" =
      .fileResponse "./downloadables/data.xyz" (some "application/octet-stream")
        (some "download_data.xyz") := by
  constructor
  · exact (custom_download_media_and_filename
      (fun p => if pyEndsWith p ".txt" then some "text/plain" else none)
      "./downloadables/notes.txt" "notes.txt").1 "text/plain" (by decide)
  · exact (custom_download_media_and_filename
      (fun p => if pyEndsWith p ".txt" then some "text/plain" else none)
      "./downloadables/data.xyz" "data.xyz").2.1 (by decide)

end FapiLabs
